import Mathlib

/-!
Verification of the courier terminal HTTP client.

Shallow embedding of the repository's core: the data model
(`src/models/request.rs`, `src/models/response.rs`), the scroll helper
(`src/utils.rs`), the URL/header building logic of the dispatch bridge
(`src/http/client.rs`), the application state machine (`src/app.rs`) and
the send gate of the event loop (`src/main.rs`).  Rust `usize` values are
modelled as `Nat` (no overflow is reachable for the quantities involved),
`String` stays `String`, `Vec<T>` becomes `List T`, fallible lookups use
`Option`.  `tui_textarea::TextArea` single-line editors are modelled by
the string they hold (`single_line_textarea` / `textarea_value` round-trip
the text exactly); `ratatui::widgets::ListState` is modelled by its
`selected : Option Nat` component (the scroll `offset` component is
render-only and touched by none of the embedded operations).
`serde_json::from_str::<Value>` is an external library call and is
abstracted as an explicit parsing oracle `String → Except String Unit`
threaded through the operations that invoke it.
-/

namespace Courier

/-- `KeyValue` from `src/models/request.rs`: one query-parameter or header
entry. -/
structure KeyValue where
  enabled : Bool
  key : String
  value : String
deriving DecidableEq, Repr

/-- `impl Default for KeyValue`: enabled, empty key and value. -/
def KeyValue.default : KeyValue := ⟨true, "", ""⟩

instance : Inhabited KeyValue := ⟨KeyValue.default⟩

/-- `HttpMethod` from `src/models/request.rs`. -/
inductive HttpMethod where
  | get | post | put | patch | delete | head | options
deriving DecidableEq, Repr

/-- `HttpMethod::next` (`src/models/request.rs`). -/
def HttpMethod.next : HttpMethod → HttpMethod
  | .get => .post
  | .post => .put
  | .put => .patch
  | .patch => .delete
  | .delete => .head
  | .head => .options
  | .options => .get

/-- `HttpMethod::prev` (`src/models/request.rs`). -/
def HttpMethod.prev : HttpMethod → HttpMethod
  | .get => .options
  | .post => .get
  | .put => .post
  | .patch => .put
  | .delete => .patch
  | .head => .delete
  | .options => .head

/-- `Response` from `src/models/response.rs`; `elapsed : Duration` is
modelled in milliseconds. -/
structure Response where
  status : Nat
  statusText : String
  headers : List (String × String)
  body : String
  elapsedMs : Nat
  sizeBytes : Nat
deriving DecidableEq, Repr

/-- `RequestState` from `src/models/response.rs`. -/
inductive RequestState where
  | idle
  | loading
  | success (response : Response)
  | error (msg : String)
deriving DecidableEq, Repr

/-- `impl Default for RequestState`: `Idle`. -/
def RequestState.default : RequestState := .idle

/-- `scroll_by` from `src/utils.rs`.  `pos` is updated in place in the
source; here the new value is returned.  `pos.saturating_sub` is `Nat`
subtraction; `(-delta) as usize` for `delta < 0` is `(-delta).toNat`. -/
def scroll_by (pos : Nat) (delta : Int) (mx : Nat) : Nat :=
  if delta < 0 then
    pos - (-delta).toNat
  else if mx > 0 then
    min (pos + delta.toNat) (mx - 1)
  else
    pos

/-! Rust `str` operations are modelled over the character list `s.data`
(instead of Lean's byte-position-based `String` functions) so that every
definition evaluates by kernel reduction. -/

/-- Rust `str::contains(char)`. -/
def strContains (s : String) (c : Char) : Bool :=
  s.data.contains c

/-- Rust `char::is_whitespace`: the Unicode White_Space property
(U+0009–U+000D, space, NEL, NBSP, Ogham space mark, U+2000–U+200A, line
and paragraph separators, narrow no-break space, medium mathematical
space, ideographic space). -/
def isRustWhitespace (c : Char) : Bool :=
  let n := c.toNat
  decide ((0x09 ≤ n ∧ n ≤ 0x0D) ∨ n = 0x20 ∨ n = 0x85 ∨ n = 0xA0 ∨ n = 0x1680
    ∨ (0x2000 ≤ n ∧ n ≤ 0x200A) ∨ n = 0x2028 ∨ n = 0x2029 ∨ n = 0x202F
    ∨ n = 0x205F ∨ n = 0x3000)

/-- Rust `str::trim`: drop leading and trailing Unicode-whitespace
characters. -/
def strTrim (s : String) : String :=
  ⟨((s.data.dropWhile isRustWhitespace).reverse.dropWhile isRustWhitespace).reverse⟩

/-- Rust `str::starts_with(char)`. -/
def strStartsWithChar (s : String) (c : Char) : Bool :=
  s.data.head? == some c

/-- Rust `str::starts_with(&str)`. -/
def strStartsWith (s pre : String) : Bool :=
  pre.data.isPrefixOf s.data

/-- Rust `str::to_lowercase`.  (Lean's `Char.toLower` lowers only ASCII
letters; the two agree on every comparison performed here, which is
against the all-ASCII literal `"content-type"`.) -/
def strToLower (s : String) : String :=
  ⟨s.data.map Char.toLower⟩

/-- Characters the `urlencoding` crate leaves unencoded: ASCII
alphanumerics and `-`, `.`, `_`, `~`. -/
def isUrlUnreserved (c : Char) : Bool :=
  c.isAlphanum || c = '-' || c = '.' || c = '_' || c = '~'

/-- UTF-8 byte sequence of a character (standard encoding). -/
def utf8Bytes (c : Char) : List Nat :=
  let n := c.toNat
  if n < 0x80 then [n]
  else if n < 0x800 then
    [0xC0 ||| (n >>> 6), 0x80 ||| (n &&& 0x3F)]
  else if n < 0x10000 then
    [0xE0 ||| (n >>> 12), 0x80 ||| ((n >>> 6) &&& 0x3F), 0x80 ||| (n &&& 0x3F)]
  else
    [0xF0 ||| (n >>> 18), 0x80 ||| ((n >>> 12) &&& 0x3F),
     0x80 ||| ((n >>> 6) &&& 0x3F), 0x80 ||| (n &&& 0x3F)]

/-- Uppercase hexadecimal digit for `n < 16`. -/
def hexDigitChar (n : Nat) : Char :=
  if n < 10 then Char.ofNat (48 + n) else Char.ofNat (55 + n)

/-- Percent-encoding of one character: each UTF-8 byte as `%XX`. -/
def percentEncodeChar (c : Char) : String :=
  String.join ((utf8Bytes c).map fun b =>
    "%" ++ String.singleton (hexDigitChar (b / 16)) ++ String.singleton (hexDigitChar (b % 16)))

/-- `urlencoding::encode`: unreserved characters kept, everything else
percent-encoded byte-wise. -/
def urlencode (s : String) : String :=
  String.join (s.data.map fun c =>
    if isUrlUnreserved c then String.singleton c else percentEncodeChar c)

/-- `build_url_with_params` from `src/http/client.rs`. -/
def build_url_with_params (baseUrl : String) (params : List KeyValue) : String :=
  let enabledParams := params.filter fun p => p.enabled && !p.key.isEmpty
  if enabledParams.isEmpty then baseUrl
  else
    let query := String.intercalate "&"
      (enabledParams.map fun p => urlencode p.key ++ "=" ++ urlencode p.value)
    if strContains baseUrl '?' then baseUrl ++ "&" ++ query
    else baseUrl ++ "?" ++ query

/-- URL builder following the spec's words (§4.4): the enabled, non-empty-key
parameters become percent-encoded `key=value` pairs joined with `&`, appended
after `?` when the base URL has no query string yet and after `&` otherwise;
with no such parameters the base URL is returned unchanged.  Stated
separately from `build_url_with_params` so that their equality is a
checkable refinement. -/
def buildUrlSpec (baseUrl : String) (params : List KeyValue) : String :=
  let pairs := (params.filter fun p => p.enabled && p.key ≠ "").map
    fun p => urlencode p.key ++ "=" ++ urlencode p.value
  match pairs with
  | [] => baseUrl
  | _ :: _ =>
    baseUrl ++ (if strContains baseUrl '?' then "&" else "?") ++ String.intercalate "&" pairs

/-- `RequestData` from `src/http/client.rs`. -/
structure RequestData where
  method : HttpMethod
  url : String
  params : List KeyValue
  headers : List KeyValue
  body : String
deriving DecidableEq, Repr

/-- The part of `reqwest`'s request builder that `execute_request`
observes: the final URL, the applied headers in application order, and the
body, if one was set. -/
structure RequestBuilder where
  url : String
  headers : List (String × String)
  body : Option String
deriving DecidableEq, Repr

/-- One step of the header loop in `execute_request`: `request.header(..)`
when the entry is enabled with a non-empty key, otherwise the builder is
left alone. -/
def applyEnabledHeader (r : RequestBuilder) (h : KeyValue) : RequestBuilder :=
  if h.enabled && !h.key.isEmpty then
    { r with headers := r.headers ++ [(h.key, h.value)] }
  else r

/-- The pure builder-construction half of `execute_request`
(`src/http/client.rs`, up to `request.send()`): build the URL from the
params, apply each enabled non-empty-key header in order, then, for a
non-empty body with no explicit enabled `content-type` header (compared
after `to_lowercase`), infer `Content-Type` from the trimmed body's first
character, and set the body. -/
def execute_request_build (data : RequestData) : RequestBuilder :=
  let url := build_url_with_params data.url data.params
  let req : RequestBuilder := { url := url, headers := [], body := none }
  let req := data.headers.foldl applyEnabledHeader req
  if !data.body.isEmpty then
    let hasContentType := data.headers.any fun h =>
      h.enabled && strToLower h.key == "content-type"
    let req :=
      if !hasContentType then
        if strStartsWithChar (strTrim data.body) '\x7b' ||
            strStartsWithChar (strTrim data.body) '[' then
          { req with headers := req.headers ++ [("Content-Type", "application/json")] }
        else
          { req with headers := req.headers ++ [("Content-Type", "text/plain")] }
      else req
    { req with body := some data.body }
  else req

/-- The explicitly applied headers of a request: the enabled, non-empty-key
entries in order, as plain pairs. -/
def explicitHeaders (data : RequestData) : List (String × String) :=
  (data.headers.filter fun h => h.enabled && !h.key.isEmpty).map fun h => (h.key, h.value)

/-- Whether an enabled header whose key lowercases to `content-type` is
present (the check `execute_request` performs before inferring one). -/
def hasContentTypeHeader (data : RequestData) : Bool :=
  data.headers.any fun h => h.enabled && strToLower h.key == "content-type"

/-- `AuthType` from `src/models/request.rs`. -/
inductive AuthType where
  | none
  | basic (username password : String)
  | bearer (token : String)
  | apiKey (key value : String)
deriving DecidableEq, Repr

/-- `Request` from `src/models/request.rs`; the `created_at : SystemTime`
wall-clock stamp is abstracted to a `Nat`. -/
structure Request where
  method : HttpMethod
  url : String
  params : List KeyValue
  headers : List KeyValue
  body : String
  auth : AuthType
  created_at : Nat
deriving DecidableEq, Repr

/-- `Request::new` (creation time abstracted to 0). -/
def Request.new (method : HttpMethod) (url : String) : Request :=
  ⟨method, url, [], [], "", .none, 0⟩

/-- `impl Default for Request`: `Request::new(HttpMethod::Get, "")`. -/
def Request.default : Request := Request.new .get ""

/-- `ratatui::widgets::ListState`, reduced to its `selected` component
(the scroll `offset` component is render-only and never read by the
embedded operations). -/
structure ListState where
  selected : Option Nat
deriving DecidableEq, Repr

/-- `ListState::default()`: nothing selected. -/
def ListState.default : ListState := ⟨none⟩

/-- `Panel` from `src/app.rs`. -/
inductive Panel where
  | sidebar | requestEditor | response
deriving DecidableEq, Repr

/-- `Panel::next`. -/
def Panel.next : Panel → Panel
  | .sidebar => .requestEditor
  | .requestEditor => .response
  | .response => .sidebar

/-- `Panel::prev`. -/
def Panel.prev : Panel → Panel
  | .sidebar => .response
  | .requestEditor => .sidebar
  | .response => .requestEditor

/-- `RequestTab` from `src/app.rs`. -/
inductive RequestTab where
  | params | headers | body
deriving DecidableEq, Repr

/-- `EditFocus` from `src/app.rs`. -/
inductive EditFocus where
  | none | url | keyValue | body
deriving DecidableEq, Repr

/-- `KvField` from `src/app.rs`. -/
inductive KvField where
  | key | value
deriving DecidableEq, Repr

/-- `KvField::toggle`. -/
def KvField.toggle : KvField → KvField
  | .key => .value
  | .value => .key

/-- `KvEditor` from `src/app.rs`.  The two `TextArea` sub-field editors
are modelled by the single line of text they hold (`single_line_textarea`
and `textarea_value` round-trip that text exactly). -/
structure KvEditor where
  state : ListState
  field : KvField
  key_input : String
  value_input : String
deriving DecidableEq, Repr

/-- `impl Default for KvEditor`. -/
def KvEditor.default : KvEditor := ⟨ListState.default, .key, "", ""⟩

/-- `KvEditor::reset`. -/
def KvEditor.reset (_e : KvEditor) : KvEditor := KvEditor.default

/-- `KvEditor::selected`: `state.selected().unwrap_or(0)`. -/
def KvEditor.selected (e : KvEditor) : Nat := e.state.selected.getD 0

/-- `KvEditor::select`. -/
def KvEditor.select (e : KvEditor) (index : Nat) : KvEditor :=
  { e with state := ⟨some index⟩ }

/-- `KvEditor::select_next`. -/
def KvEditor.select_next (e : KvEditor) (len : Nat) : KvEditor :=
  if len = 0 then e
  else
    let i := match e.state.selected with
      | some i => (i + 1) % len
      | none => 0
    { e with state := ⟨some i⟩ }

/-- `KvEditor::select_prev`. -/
def KvEditor.select_prev (e : KvEditor) (len : Nat) : KvEditor :=
  if len = 0 then e
  else
    let i := match e.state.selected with
      | some i => if i = 0 then len - 1 else i - 1
      | none => 0
    { e with state := ⟨some i⟩ }

/-- `KvEditor::toggle_field`. -/
def KvEditor.toggle_field (e : KvEditor) : KvEditor :=
  { e with field := e.field.toggle }

/-- `KvEditor::sync_from_item`: load the item's key and value into fresh
sub-field editors. -/
def KvEditor.sync_from_item (e : KvEditor) (item : KeyValue) : KvEditor :=
  { e with key_input := item.key, value_input := item.value }

/-- The application state (`App` in `src/app.rs`).  `url_input` and
`body_editor` are the text held by the corresponding `TextArea`s
(`body_editor`'s internal line list is abstracted to the joined text that
`App::body` returns). -/
structure App where
  focused_panel : Panel
  should_quit : Bool
  show_help : Bool
  help_scroll : Nat
  requests : List Request
  sidebar_state : ListState
  editing_request_idx : Option Nat
  active_tab : RequestTab
  edit_focus : EditFocus
  url_input : String
  method : HttpMethod
  params : List KeyValue
  params_editor : KvEditor
  headers : List KeyValue
  headers_editor : KvEditor
  body_editor : String
  json_error : Option String
  request_state : RequestState
  response_scroll : Nat
deriving DecidableEq, Repr

/-- `serde_json` calls are external library calls; this oracle abstracts
them.  `parse` models `serde_json::from_str::<Value>` (`Except.ok` when
the text is parseable JSON, `Except.error` carrying the error's display
string otherwise); `pretty` models `from_str` followed by
`to_string_pretty` (`none` when either step fails). -/
structure JsonOracle where
  parse : String → Except String Unit
  pretty : String → Option String

/-- `App::new`. -/
def App.new : App where
  focused_panel := .sidebar
  should_quit := false
  show_help := false
  help_scroll := 0
  requests := []
  sidebar_state := ListState.default
  editing_request_idx := none
  active_tab := .params
  edit_focus := .none
  url_input := ""
  method := .get
  params := []
  params_editor := KvEditor.default
  headers := []
  headers_editor := KvEditor.default
  body_editor := ""
  json_error := none
  request_state := RequestState.default
  response_scroll := 0

/-- `App::url`: the text of the URL editor. -/
def App.url (a : App) : String := a.url_input

/-- `App::quit`. -/
def App.quit (a : App) : App := { a with should_quit := true }

/-- `App::toggle_help`. -/
def App.toggle_help (a : App) : App :=
  let a := { a with show_help := !a.show_help }
  if a.show_help then { a with help_scroll := 0 } else a

/-- `App::is_editing`. -/
def App.is_editing (a : App) : Bool := a.edit_focus != .none

/-- `App::body`: the body editor's text. -/
def App.body (a : App) : String := a.body_editor

/-- `App::validate_json`: an empty-after-trim body clears the error;
otherwise the error is `Some("JSON: {e}")` exactly when parsing fails. -/
def App.validate_json (jo : JsonOracle) (a : App) : App :=
  let text := a.body
  if (strTrim text).isEmpty then { a with json_error := none }
  else
    match jo.parse text with
    | .ok _ => { a with json_error := none }
    | .error e => { a with json_error := some ("JSON: " ++ e) }

/-- `App::set_body` (re-validates the JSON). -/
def App.set_body (jo : JsonOracle) (a : App) (text : String) : App :=
  App.validate_json jo { a with body_editor := text }

/-- `App::format_json`: replace the body by its pretty-printed form and
clear the error when the body parses and pretty-prints; otherwise leave
the app unchanged. -/
def App.format_json (jo : JsonOracle) (a : App) : App :=
  match jo.pretty a.body with
  | some formatted => { a.set_body jo formatted with json_error := none }
  | none => a

/-- `App::focus_next_panel`. -/
def App.focus_next_panel (a : App) : App :=
  { a with focused_panel := a.focused_panel.next }

/-- `App::focus_prev_panel`. -/
def App.focus_prev_panel (a : App) : App :=
  { a with focused_panel := a.focused_panel.prev }

/-- `App::selected_request`. -/
def App.selected_request (a : App) : Nat := a.sidebar_state.selected.getD 0

/-- `App::select_next_request`. -/
def App.select_next_request (a : App) : App :=
  if a.requests.isEmpty then a
  else
    let i := match a.sidebar_state.selected with
      | some i => (i + 1) % a.requests.length
      | none => 0
    { a with sidebar_state := ⟨some i⟩ }

/-- `App::select_prev_request`. -/
def App.select_prev_request (a : App) : App :=
  if a.requests.isEmpty then a
  else
    let i := match a.sidebar_state.selected with
      | some i => if i = 0 then a.requests.length - 1 else i - 1
      | none => 0
    { a with sidebar_state := ⟨some i⟩ }

/-- `App::add_request`. -/
def App.add_request (a : App) (request : Request) : App :=
  { a with requests := request :: a.requests
           sidebar_state := ⟨some 0⟩
           editing_request_idx := some 0 }

/-- `App::new_request`: prepend a blank request, select it, and clear the
whole editor state, including resetting `request_state` to its default. -/
def App.new_request (jo : JsonOracle) (a : App) : App :=
  let a := { a with requests := Request.default :: a.requests
                    sidebar_state := ⟨some 0⟩
                    editing_request_idx := some 0
                    url_input := ""
                    method := .get
                    params := []
                    headers := [] }
  let a := a.set_body jo ""
  { a with params_editor := a.params_editor.reset
           headers_editor := a.headers_editor.reset
           request_state := RequestState.default }

/-- `App::update_request`. -/
def App.update_request (a : App) (idx : Nat) (request : Request) : App :=
  if idx < a.requests.length then { a with requests := a.requests.set idx request }
  else a

/-- The editing-index adjustment inside `App::delete_selected_request`:
clear it when it pointed at the removed entry, shift it down when it
pointed above. -/
def adjustEditingIdx (editing : Option Nat) (selected : Nat) : Option Nat :=
  match editing with
  | some idx =>
    if idx = selected then none
    else if idx > selected then some (idx - 1)
    else some idx
  | none => none

/-- `App::delete_selected_request`: remove the selected history entry,
adjust the editing index, and clamp the sidebar selection when it fell off
the end.  (`Vec::remove` is modelled by `List.eraseIdx` as in `kv_delete`.) -/
def App.delete_selected_request (a : App) : App :=
  if a.requests.isEmpty then a
  else
    let selected := a.selected_request
    let a := { a with requests := a.requests.eraseIdx selected
                      editing_request_idx := adjustEditingIdx a.editing_request_idx selected }
    if selected ≥ a.requests.length ∧ ¬a.requests.isEmpty then
      { a with sidebar_state := ⟨some (a.requests.length - 1)⟩ }
    else a

/-- `App::load_selected_request`. -/
def App.load_selected_request (jo : JsonOracle) (a : App) : App :=
  let idx := a.selected_request
  match a.requests.get? idx with
  | none => a
  | some req =>
    let a := { a with editing_request_idx := some idx
                      url_input := req.url
                      method := req.method
                      params := req.params
                      headers := req.headers }
    let a := a.set_body jo req.body
    { a with params_editor := a.params_editor.reset
             headers_editor := a.headers_editor.reset }

/-- `App::cycle_method_next`. -/
def App.cycle_method_next (a : App) : App := { a with method := a.method.next }

/-- `App::cycle_method_prev`. -/
def App.cycle_method_prev (a : App) : App := { a with method := a.method.prev }

/-- `App::current_kv_items`: the collection the active tab addresses. -/
def App.current_kv_items (a : App) : List KeyValue :=
  match a.active_tab with
  | .params => a.params
  | .headers | .body => a.headers

/-- `App::current_kv_editor`. -/
def App.current_kv_editor (a : App) : KvEditor :=
  match a.active_tab with
  | .params => a.params_editor
  | .headers | .body => a.headers_editor

/-- Writing through `App::current_kv_items_mut`. -/
def App.set_current_kv_items (a : App) (items : List KeyValue) : App :=
  match a.active_tab with
  | .params => { a with params := items }
  | .headers | .body => { a with headers := items }

/-- Writing through `App::current_kv_editor_mut`. -/
def App.set_current_kv_editor (a : App) (e : KvEditor) : App :=
  match a.active_tab with
  | .params => { a with params_editor := e }
  | .headers | .body => { a with headers_editor := e }

/-- `App::sync_kv_editor_from_items`: copy the selected entry (when one
exists at the selected index) into fresh sub-field editors. -/
def App.sync_kv_editor_from_items (a : App) : App :=
  let selected := a.current_kv_editor.selected
  match a.current_kv_items.get? selected with
  | some item => a.set_current_kv_editor (a.current_kv_editor.sync_from_item item)
  | none => a

/-- `App::sync_kv_items_from_editor`: flush the sub-field editors' text
into the selected entry (when one exists at the selected index). -/
def App.sync_kv_items_from_editor (a : App) : App :=
  let selected := a.current_kv_editor.selected
  let key := a.current_kv_editor.key_input
  let value := a.current_kv_editor.value_input
  match a.current_kv_items.get? selected with
  | some item =>
    a.set_current_kv_items (a.current_kv_items.set selected { item with key := key, value := value })
  | none => a

/-- `App::start_editing`. -/
def App.start_editing (a : App) (focus : EditFocus) : App :=
  let a := { a with edit_focus := focus }
  if focus = .keyValue then a.sync_kv_editor_from_items else a

/-- `App::stop_editing`. -/
def App.stop_editing (jo : JsonOracle) (a : App) : App :=
  let a := if a.edit_focus = .keyValue then a.sync_kv_items_from_editor else a
  let a := if a.edit_focus = .body then a.validate_json jo else a
  { a with edit_focus := .none }

/-- `App::kv_add`: push a default entry, select the last index, focus the
key sub-field with fresh empty editors. -/
def App.kv_add (a : App) : App :=
  let a := a.set_current_kv_items (a.current_kv_items ++ [KeyValue.default])
  let len := a.current_kv_items.length
  a.set_current_kv_editor
    { a.current_kv_editor with state := ⟨some (len - 1)⟩
                               field := .key
                               key_input := ""
                               value_input := "" }

/-- `App::kv_delete`.  `Vec::remove(selected)` is modelled by
`List.eraseIdx`; the two agree whenever `selected` is in bounds (out of
bounds, the Rust call panics and `eraseIdx` is the identity — the
selection invariant keeps reachable states in bounds). -/
def App.kv_delete (a : App) : App :=
  let selected := a.current_kv_editor.selected
  if a.current_kv_items.isEmpty then a
  else
    let a := a.set_current_kv_items (a.current_kv_items.eraseIdx selected)
    let new_len := a.current_kv_items.length
    if a.current_kv_editor.selected ≥ new_len ∧ 0 < new_len then
      a.set_current_kv_editor (a.current_kv_editor.select (new_len - 1))
    else a

/-- `App::kv_toggle_enabled`. -/
def App.kv_toggle_enabled (a : App) : App :=
  let selected := a.current_kv_editor.selected
  match a.current_kv_items.get? selected with
  | some item =>
    a.set_current_kv_items (a.current_kv_items.set selected { item with enabled := !item.enabled })
  | none => a

/-- `App::kv_navigate`: flush the editors when actively editing, move the
selection, then reload the editors from the newly selected entry. -/
def App.kv_navigate (a : App) (forward : Bool) : App :=
  let a := if a.edit_focus = .keyValue then a.sync_kv_items_from_editor else a
  let len := a.current_kv_items.length
  let a := a.set_current_kv_editor
    (if forward then a.current_kv_editor.select_next len else a.current_kv_editor.select_prev len)
  if a.edit_focus = .keyValue then a.sync_kv_editor_from_items else a

/-- `App::kv_select_next`. -/
def App.kv_select_next (a : App) : App := a.kv_navigate true

/-- `App::kv_select_prev`. -/
def App.kv_select_prev (a : App) : App := a.kv_navigate false

/-- `App::kv_toggle_field`. -/
def App.kv_toggle_field (a : App) : App :=
  a.set_current_kv_editor a.current_kv_editor.toggle_field

/-- `App::set_loading`. -/
def App.set_loading (a : App) : App :=
  { a with request_state := .loading, response_scroll := 0 }

/-- `App::set_response`. -/
def App.set_response (a : App) (response : Response) : App :=
  { a with request_state := .success response, response_scroll := 0 }

/-- `App::set_error`. -/
def App.set_error (a : App) (error : String) : App :=
  { a with request_state := .error error, response_scroll := 0 }

/-- `App::is_loading`. -/
def App.is_loading (a : App) : Bool :=
  match a.request_state with
  | .loading => true
  | _ => false

/-- `usize::MAX` (64-bit), passed as the bound where the source does. -/
def USIZE_MAX : Nat := 2 ^ 64 - 1

/-- `App::response_scroll_up`. -/
def App.response_scroll_up (a : App) : App :=
  { a with response_scroll := scroll_by a.response_scroll (-1) USIZE_MAX }

/-- `App::response_scroll_down`. -/
def App.response_scroll_down (a : App) : App :=
  { a with response_scroll := scroll_by a.response_scroll 1 USIZE_MAX }

/-- `App::response_scroll_top`. -/
def App.response_scroll_top (a : App) : App := { a with response_scroll := 0 }

/-- `App::response_scroll_bottom`. -/
def App.response_scroll_bottom (a : App) (mx : Nat) : App :=
  if 0 < mx then { a with response_scroll := mx - 1 } else a

/-- `App::help_scroll_up`. -/
def App.help_scroll_up (a : App) (lines : Nat) : App :=
  { a with help_scroll := scroll_by a.help_scroll (-(lines : Int)) USIZE_MAX }

/-- `App::help_scroll_down`. -/
def App.help_scroll_down (a : App) (lines mx : Nat) : App :=
  { a with help_scroll := scroll_by a.help_scroll (lines : Int) mx }

/-- The send gate `send_request` in `src/main.rs`: a no-op while a request
is already Loading; an error (no dispatch) on an empty trimmed URL;
otherwise the app enters Loading and exactly one dispatch task is spawned.
The returned `Option` is the `(method, url)` handed to the spawned task
(`none` when nothing was spawned); `app.input_url` / `app.input_method`
are the URL text and method of the app. -/
def send_request (app : App) : App × Option (HttpMethod × String) :=
  if app.is_loading then (app, none)
  else
    let url := strTrim app.url_input
    if url.isEmpty then (app.set_error "URL is empty", none)
    else
      let url :=
        if !strStartsWith url "http://" && !strStartsWith url "https://" then
          "https://" ++ url
        else url
      (app.set_loading, some (app.method, url))

/-- One application operation, as dispatched by the event loop: every
mutating `App` method, plus the event loop's own send gate. -/
inductive Op where
  | quit | toggleHelp
  | focusNextPanel | focusPrevPanel
  | selectNextRequest | selectPrevRequest
  | addRequest (request : Request)
  | newRequest
  | updateRequest (idx : Nat) (request : Request)
  | deleteSelectedRequest
  | loadSelectedRequest
  | startEditing (focus : EditFocus)
  | stopEditing
  | cycleMethodNext | cycleMethodPrev
  | setBody (text : String)
  | formatJson | validateJson
  | kvAdd | kvDelete | kvToggleEnabled
  | kvSelectNext | kvSelectPrev | kvToggleField
  | setLoading
  | setResponse (response : Response)
  | setError (msg : String)
  | responseScrollUp | responseScrollDown | responseScrollTop
  | responseScrollBottom (mx : Nat)
  | helpScrollUp (lines : Nat)
  | helpScrollDown (lines mx : Nat)
  | sendRequest

/-- Apply one operation to the application state. -/
def step (jo : JsonOracle) : Op → App → App
  | .quit, a => a.quit
  | .toggleHelp, a => a.toggle_help
  | .focusNextPanel, a => a.focus_next_panel
  | .focusPrevPanel, a => a.focus_prev_panel
  | .selectNextRequest, a => a.select_next_request
  | .selectPrevRequest, a => a.select_prev_request
  | .addRequest r, a => a.add_request r
  | .newRequest, a => a.new_request jo
  | .updateRequest i r, a => a.update_request i r
  | .deleteSelectedRequest, a => a.delete_selected_request
  | .loadSelectedRequest, a => a.load_selected_request jo
  | .startEditing f, a => a.start_editing f
  | .stopEditing, a => a.stop_editing jo
  | .cycleMethodNext, a => a.cycle_method_next
  | .cycleMethodPrev, a => a.cycle_method_prev
  | .setBody t, a => a.set_body jo t
  | .formatJson, a => a.format_json jo
  | .validateJson, a => a.validate_json jo
  | .kvAdd, a => a.kv_add
  | .kvDelete, a => a.kv_delete
  | .kvToggleEnabled, a => a.kv_toggle_enabled
  | .kvSelectNext, a => a.kv_select_next
  | .kvSelectPrev, a => a.kv_select_prev
  | .kvToggleField, a => a.kv_toggle_field
  | .setLoading, a => a.set_loading
  | .setResponse r, a => a.set_response r
  | .setError m, a => a.set_error m
  | .responseScrollUp, a => a.response_scroll_up
  | .responseScrollDown, a => a.response_scroll_down
  | .responseScrollTop, a => a.response_scroll_top
  | .responseScrollBottom m, a => a.response_scroll_bottom m
  | .helpScrollUp l, a => a.help_scroll_up l
  | .helpScrollDown l m, a => a.help_scroll_down l m
  | .sendRequest, a => (send_request a).1

/-- Run a sequence of operations from a starting state. -/
def run (jo : JsonOracle) (ops : List Op) (a : App) : App :=
  ops.foldl (fun a op => step jo op a) a

/-- Selection well-formedness for one collection-editor pair: the read
selection index (`selected()`) is strictly below the list's length when
the list is non-empty, and reads 0 when it is empty. -/
def kv_selection_ok (e : KvEditor) (items : List KeyValue) : Prop :=
  (items.length = 0 → e.selected = 0) ∧ (0 < items.length → e.selected < items.length)

/-- Selection well-formedness of both collection editors. -/
def SelectionInv (a : App) : Prop :=
  kv_selection_ok a.params_editor a.params ∧ kv_selection_ok a.headers_editor a.headers

/-- A concrete state with the params tab active, two entries, the first
selected, and in-progress sub-field edits; used to evaluate the
edit-synchronization property. -/
def syncDemoApp : App :=
  { App.new with
    edit_focus := .keyValue,
    params := [⟨true, "a", "1"⟩, ⟨true, "b", "2"⟩],
    params_editor := ⟨⟨some 0⟩, .key, "A", "B"⟩ }

/-- A concrete state with two entries and the last one selected; used to
evaluate the delete-selected property. -/
def deleteDemoApp : App :=
  { App.new with
    params := [⟨true, "a", "1"⟩, ⟨true, "b", "2"⟩],
    params_editor := ⟨⟨some 1⟩, .key, "", ""⟩ }

/-- A JSON oracle that rejects every text; used to instantiate theorems
whose conclusion does not depend on the oracle. -/
def rejectAllJson : JsonOracle :=
  ⟨fun _ => Except.error "expected value", fun _ => none⟩

/-! ## Supporting lemmas -/

theorem isEmpty_not_eq (s : String) : (!s.isEmpty) = decide (s ≠ "") := by
  by_cases h : s = ""
  · subst h; decide
  · have h1 : s.isEmpty = false :=
      Bool.eq_false_iff.mpr fun hh => h ((String.isEmpty_iff s).mp hh)
    simp [h1, h]

theorem lt_of_get?_some {α : Type} {l : List α} {n : Nat} {x : α}
    (h : l.get? n = some x) : n < l.length := by
  by_contra hc
  rw [List.get?_eq_none.mpr (by omega)] at h
  exact Option.noConfusion h

theorem get?_some_of_lt {α : Type} (l : List α) (n : Nat) (h : n < l.length) :
    ∃ x, l.get? n = some x :=
  ⟨l.get ⟨n, h⟩, List.get?_eq_get h⟩

theorem headers_foldl_eq (hs : List KeyValue) (r : RequestBuilder) :
    (hs.foldl applyEnabledHeader r).headers
      = r.headers
        ++ (hs.filter fun h => h.enabled && !h.key.isEmpty).map fun h => (h.key, h.value) := by
  induction hs generalizing r with
  | nil => simp
  | cons h t ih =>
    by_cases hc : (h.enabled && !h.key.isEmpty) = true
    · simp [applyEnabledHeader, hc, ih, List.filter_cons]
    · simp [applyEnabledHeader, hc, ih, List.filter_cons]

/-- `send_request` with its branch structure flattened (pure unfolding). -/
theorem send_request_eq (a : App) :
    send_request a =
      (if a.is_loading then (a, none)
       else if (strTrim a.url_input).isEmpty then (a.set_error "URL is empty", none)
       else (a.set_loading,
         some (a.method,
           if !strStartsWith (strTrim a.url_input) "http://"
               && !strStartsWith (strTrim a.url_input) "https://" then
             "https://" ++ strTrim a.url_input
           else strTrim a.url_input))) := rfl

/-! ## C2: URL building -/

/-- C2: `build_url_with_params` appends exactly the enabled, non-empty-key
parameters as percent-encoded `key=value` pairs joined with `&`, after `?`
when the base URL has no `?` and after `&` otherwise (the spec-worded
`buildUrlSpec`), and the two example URLs of the spec come out as stated. -/
theorem build_url_with_params_spec :
    (∀ (baseUrl : String) (params : List KeyValue),
      build_url_with_params baseUrl params = buildUrlSpec baseUrl params)
    ∧ build_url_with_params "https://x/y" [⟨true, "a", "1"⟩, ⟨true, "b", "2"⟩]
        = "https://x/y?a=1&b=2"
    ∧ build_url_with_params "https://x/y?z=1" [⟨true, "a", "1"⟩, ⟨true, "b", "2"⟩]
        = "https://x/y?z=1&a=1&b=2" := by
  refine ⟨?_, by decide, by decide⟩
  intro base params
  unfold build_url_with_params buildUrlSpec
  have hf : (params.filter fun p => p.enabled && !p.key.isEmpty)
      = (params.filter fun p => p.enabled && decide (p.key ≠ "")) := by
    apply List.filter_congr
    intro p _
    rw [isEmpty_not_eq]
  rw [hf]
  cases h : params.filter fun p => p.enabled && decide (p.key ≠ "") with
  | nil => simp
  | cons q qs =>
    simp only [List.isEmpty_cons, List.map_cons]
    by_cases hc : strContains base '?' <;> simp [hc, String.append_assoc]

/-! ## C3: Content-Type inference -/

/-- C3: for a non-empty body with no enabled header whose key lowercases to
`content-type`, `execute_request` applies the explicit enabled headers
followed by an inferred `Content-Type` (`application/json` when the
trimmed body starts with a brace or bracket, `text/plain` otherwise);
with such a header present or an empty body, only the explicit headers
are applied and nothing is inferred. -/
theorem execute_request_content_type_inference (data : RequestData) :
    (data.body ≠ "" → hasContentTypeHeader data = false →
      (execute_request_build data).headers =
        explicitHeaders data ++
          [("Content-Type",
            if strStartsWithChar (strTrim data.body) '\x7b' ||
               strStartsWithChar (strTrim data.body) '[' then "application/json"
            else "text/plain")])
    ∧ (data.body = "" ∨ hasContentTypeHeader data = true →
      (execute_request_build data).headers = explicitHeaders data) := by
  constructor
  · intro hbody hct
    have hbe : data.body.isEmpty = false :=
      Bool.eq_false_iff.mpr fun hh => hbody ((String.isEmpty_iff data.body).mp hh)
    have hct' : (data.headers.any fun h => h.enabled && strToLower h.key == "content-type")
        = false := hct
    by_cases hj : (strStartsWithChar (strTrim data.body) '\x7b'
        || strStartsWithChar (strTrim data.body) '[') = true
    · simp [execute_request_build, hbe, hct', hj, headers_foldl_eq, explicitHeaders]
    · have hj' : (strStartsWithChar (strTrim data.body) '\x7b'
          || strStartsWithChar (strTrim data.body) '[') = false := by simpa using hj
      simp [execute_request_build, hbe, hct', hj', headers_foldl_eq, explicitHeaders]
  · intro hcase
    rcases hcase with hbody | hct
    · have hbe : data.body.isEmpty = true := (String.isEmpty_iff data.body).mpr hbody
      simp [execute_request_build, hbe, headers_foldl_eq, explicitHeaders]
    · have hct' : (data.headers.any fun h => h.enabled && strToLower h.key == "content-type")
        = true := hct
      by_cases hbe : data.body.isEmpty = true
      · simp [execute_request_build, hbe, headers_foldl_eq, explicitHeaders]
      · have hbe' : data.body.isEmpty = false := by simpa using hbe
        simp [execute_request_build, hbe', hct', headers_foldl_eq, explicitHeaders]

/-- C3 witness: the spec's JSON-body example, evaluated. -/
theorem execute_request_content_type_inference_witness :
    (execute_request_build ⟨.post, "https://x", [], [], "\x7b\"a\":1\x7d"⟩).headers
      = [("Content-Type", "application/json")] := by
  have h := (execute_request_content_type_inference
    ⟨.post, "https://x", [], [], "\x7b\"a\":1\x7d"⟩).1 (by decide) (by decide)
  exact h.trans (by decide)

/-! ## C4: scroll clamping -/

/-- C4 counterexample: from offset 0 with delta 1 and bound 1, `scroll_by`
produces offset 0, which is not strictly below `max (bound-1) 0 = 0`; the
claim's "never produces an offset ≥ max(bound-1, 0)" is therefore false
at this input (the clamp is inclusive). -/
theorem scroll_by_claim_counterexample :
    ¬ (scroll_by 0 1 1 < max (1 - 1) 0) := by decide

/-- C4 (amended): scroll-down (positive delta) with a positive bound
clamps the offset to at most `max (bound-1) 0` (it can equal it), and
with bound 0 leaves the offset unchanged; scroll-up (negative delta)
never produces a negative offset — the result is exactly
`max (pos + delta) 0`. -/
theorem scroll_by_clamp_amended (pos : Nat) (delta : Int) (mx : Nat) :
    (0 < delta → 0 < mx → scroll_by pos delta mx ≤ max (mx - 1) 0)
    ∧ (0 < delta → mx = 0 → scroll_by pos delta mx = pos)
    ∧ (delta < 0 → (scroll_by pos delta mx : Int) = max ((pos : Int) + delta) 0) := by
  refine ⟨?_, ?_, ?_⟩
  · intro h1 h2
    unfold scroll_by
    rw [if_neg (by omega), if_pos h2]
    omega
  · intro h1 h2
    unfold scroll_by
    rw [if_neg (by omega), if_neg (by omega)]
  · intro h1
    unfold scroll_by
    rw [if_pos h1]
    omega

/-- C4 witness: the amended clamp evaluated at concrete inputs. -/
theorem scroll_by_clamp_amended_witness :
    scroll_by 3 2 4 ≤ max (4 - 1) 0
    ∧ scroll_by 3 2 0 = 3
    ∧ (scroll_by 5 (-7) 3 : Int) = max ((5 : Int) + (-7)) 0 :=
  ⟨(scroll_by_clamp_amended 3 2 4).1 (by decide) (by decide),
   (scroll_by_clamp_amended 3 2 0).2.1 (by decide) rfl,
   (scroll_by_clamp_amended 5 (-7) 3).2.2 (by decide)⟩

/-! ## Accessor lemmas for the current collection pair -/

theorem current_kv_editor_set_items (a : App) (items : List KeyValue) :
    (a.set_current_kv_items items).current_kv_editor = a.current_kv_editor := by
  cases h : a.active_tab <;>
    simp [App.set_current_kv_items, App.current_kv_editor, h]

theorem current_kv_items_set_items (a : App) (items : List KeyValue) :
    (a.set_current_kv_items items).current_kv_items = items := by
  cases h : a.active_tab <;>
    simp [App.set_current_kv_items, App.current_kv_items, h]

theorem current_kv_items_set_editor (a : App) (e : KvEditor) :
    (a.set_current_kv_editor e).current_kv_items = a.current_kv_items := by
  cases h : a.active_tab <;>
    simp [App.set_current_kv_editor, App.current_kv_items, h]

theorem current_kv_editor_set_editor (a : App) (e : KvEditor) :
    (a.set_current_kv_editor e).current_kv_editor = e := by
  cases h : a.active_tab <;>
    simp [App.set_current_kv_editor, App.current_kv_editor, h]

theorem edit_focus_set_items (a : App) (items : List KeyValue) :
    (a.set_current_kv_items items).edit_focus = a.edit_focus := by
  cases h : a.active_tab <;> simp [App.set_current_kv_items, h]

theorem edit_focus_set_editor (a : App) (e : KvEditor) :
    (a.set_current_kv_editor e).edit_focus = a.edit_focus := by
  cases h : a.active_tab <;> simp [App.set_current_kv_editor, h]

theorem current_kv_items_set_focus (a : App) (f : EditFocus) :
    ({ a with edit_focus := f } : App).current_kv_items = a.current_kv_items := by
  cases h : a.active_tab <;> simp [App.current_kv_items, h]

theorem sync_items_spec (a : App) (item : KeyValue)
    (hitem : a.current_kv_items.get? a.current_kv_editor.selected = some item) :
    a.sync_kv_items_from_editor = a.set_current_kv_items
      (a.current_kv_items.set a.current_kv_editor.selected
        { item with key := a.current_kv_editor.key_input,
                    value := a.current_kv_editor.value_input }) := by
  unfold App.sync_kv_items_from_editor
  simp only [hitem]

theorem sync_editor_spec (a : App) (item : KeyValue)
    (hitem : a.current_kv_items.get? a.current_kv_editor.selected = some item) :
    a.sync_kv_editor_from_items
      = a.set_current_kv_editor (a.current_kv_editor.sync_from_item item) := by
  unfold App.sync_kv_editor_from_items
  simp only [hitem]

theorem select_next_selected_lt (e : KvEditor) (len : Nat) (h : 0 < len) :
    (e.select_next len).selected < len := by
  unfold KvEditor.select_next
  rw [if_neg (by omega)]
  cases hs : e.state.selected with
  | none => simpa [KvEditor.selected] using h
  | some i =>
    simp only [KvEditor.selected, Option.getD_some]
    exact Nat.mod_lt _ h

theorem select_prev_selected_lt (e : KvEditor) (len : Nat) (h : 0 < len)
    (hsel : e.selected < len) :
    (e.select_prev len).selected < len := by
  unfold KvEditor.select_prev
  rw [if_neg (by omega)]
  cases hs : e.state.selected with
  | none => simpa [KvEditor.selected] using h
  | some i =>
    have hi : i < len := by simpa [KvEditor.selected, hs] using hsel
    simp only [KvEditor.selected, Option.getD_some]
    split <;> omega

theorem sync_from_item_selected (e : KvEditor) (item : KeyValue) :
    (e.sync_from_item item).selected = e.selected := rfl

theorem select_selected (e : KvEditor) (i : Nat) : (e.select i).selected = i := rfl

/-- What one `kv_navigate` call does when actively editing a valid
selection: the old selection receives the editors' text, and the editors
are reloaded from the (in-range) new selection. -/
theorem kv_navigate_spec (a : App) (fwd : Bool) (item : KeyValue)
    (hfocus : a.edit_focus = .keyValue)
    (hitem : a.current_kv_items.get? a.current_kv_editor.selected = some item) :
    ∃ item' : KeyValue,
      (a.kv_navigate fwd).current_kv_items
          = a.current_kv_items.set a.current_kv_editor.selected
              { item with key := a.current_kv_editor.key_input,
                          value := a.current_kv_editor.value_input }
      ∧ (a.kv_navigate fwd).current_kv_items.get? (a.kv_navigate fwd).current_kv_editor.selected
          = some item'
      ∧ (a.kv_navigate fwd).current_kv_editor.key_input = item'.key
      ∧ (a.kv_navigate fwd).current_kv_editor.value_input = item'.value
      ∧ (a.kv_navigate fwd).current_kv_editor.selected
          < (a.kv_navigate fwd).current_kv_items.length := by
  have hsel := lt_of_get?_some hitem
  have hlen : 0 < a.current_kv_items.length := by omega
  have hnav : a.kv_navigate fwd =
      App.sync_kv_editor_from_items
        ((a.set_current_kv_items
            (a.current_kv_items.set a.current_kv_editor.selected
              { item with key := a.current_kv_editor.key_input,
                          value := a.current_kv_editor.value_input })).set_current_kv_editor
          (if fwd then a.current_kv_editor.select_next a.current_kv_items.length
           else a.current_kv_editor.select_prev a.current_kv_items.length)) := by
    rw [App.kv_navigate, if_pos hfocus, sync_items_spec a item hitem]
    simp only [current_kv_items_set_items, current_kv_editor_set_items,
      edit_focus_set_items, edit_focus_set_editor, List.length_set]
    rw [if_pos hfocus]
  set L1 := a.current_kv_items.set a.current_kv_editor.selected
    { item with key := a.current_kv_editor.key_input,
                value := a.current_kv_editor.value_input } with hL1
  set E2 := (if fwd then a.current_kv_editor.select_next a.current_kv_items.length
    else a.current_kv_editor.select_prev a.current_kv_items.length) with hE2
  set A2 := (a.set_current_kv_items L1).set_current_kv_editor E2 with hA2
  have hA2ed : A2.current_kv_editor = E2 := current_kv_editor_set_editor _ _
  have hA2items : A2.current_kv_items = L1 := by
    rw [hA2, current_kv_items_set_editor, current_kv_items_set_items]
  have hL1len : L1.length = a.current_kv_items.length := List.length_set _ _ _
  have hE2sel : E2.selected < L1.length := by
    rw [hL1len, hE2]
    cases fwd with
    | true => simpa using select_next_selected_lt a.current_kv_editor _ hlen
    | false => simpa using select_prev_selected_lt a.current_kv_editor _ hlen hsel
  obtain ⟨item', hitem'⟩ := get?_some_of_lt L1 E2.selected hE2sel
  have hsync : A2.current_kv_items.get? A2.current_kv_editor.selected = some item' := by
    rw [hA2items, hA2ed]; exact hitem'
  refine ⟨item', ?_, ?_, ?_, ?_, ?_⟩ <;>
    rw [hnav, sync_editor_spec A2 item' hsync]
  · rw [current_kv_items_set_editor, hA2items]
  · rw [current_kv_items_set_editor, hA2items, current_kv_editor_set_editor,
      sync_from_item_selected, hA2ed]
    exact hitem'
  · rw [current_kv_editor_set_editor]
    rfl
  · rw [current_kv_editor_set_editor]
    rfl
  · rw [current_kv_items_set_editor, hA2items, current_kv_editor_set_editor,
      sync_from_item_selected, hA2ed]
    exact hE2sel

/-! ## C5: edit synchronization on navigation -/

/-- C5: while `EditFocus` is `KeyValue` with a valid selection, each of
`kv_select_next`, `kv_select_prev` and `stop_editing` first flushes the
sub-field editors' text into the selected entry (its key and value become
the editors' text), and the two navigation calls then load the newly
selected entry's key and value into the editors — no in-progress edit is
discarded. -/
theorem kv_navigation_sync (jo : JsonOracle) (a : App)
    (hfocus : a.edit_focus = .keyValue)
    (hsel : a.current_kv_editor.selected < a.current_kv_items.length) :
    (((a.kv_select_next).current_kv_items.get? a.current_kv_editor.selected).map KeyValue.key
        = some a.current_kv_editor.key_input
      ∧ ((a.kv_select_next).current_kv_items.get? a.current_kv_editor.selected).map KeyValue.value
        = some a.current_kv_editor.value_input
      ∧ ((a.kv_select_next).current_kv_items.get?
            (a.kv_select_next).current_kv_editor.selected).map KeyValue.key
        = some (a.kv_select_next).current_kv_editor.key_input
      ∧ ((a.kv_select_next).current_kv_items.get?
            (a.kv_select_next).current_kv_editor.selected).map KeyValue.value
        = some (a.kv_select_next).current_kv_editor.value_input)
    ∧ (((a.kv_select_prev).current_kv_items.get? a.current_kv_editor.selected).map KeyValue.key
        = some a.current_kv_editor.key_input
      ∧ ((a.kv_select_prev).current_kv_items.get? a.current_kv_editor.selected).map KeyValue.value
        = some a.current_kv_editor.value_input
      ∧ ((a.kv_select_prev).current_kv_items.get?
            (a.kv_select_prev).current_kv_editor.selected).map KeyValue.key
        = some (a.kv_select_prev).current_kv_editor.key_input
      ∧ ((a.kv_select_prev).current_kv_items.get?
            (a.kv_select_prev).current_kv_editor.selected).map KeyValue.value
        = some (a.kv_select_prev).current_kv_editor.value_input)
    ∧ (((a.stop_editing jo).current_kv_items.get? a.current_kv_editor.selected).map KeyValue.key
        = some a.current_kv_editor.key_input
      ∧ ((a.stop_editing jo).current_kv_items.get? a.current_kv_editor.selected).map KeyValue.value
        = some a.current_kv_editor.value_input) := by
  obtain ⟨item, hitem⟩ := get?_some_of_lt _ _ hsel
  refine ⟨?_, ?_, ?_⟩
  · obtain ⟨item', h1, h2, h3, h4, h5⟩ := kv_navigate_spec a true item hfocus hitem
    rw [show a.kv_select_next = a.kv_navigate true from rfl]
    refine ⟨?_, ?_, ?_, ?_⟩
    · rw [h1, List.get?_set_eq_of_lt _ hsel]; rfl
    · rw [h1, List.get?_set_eq_of_lt _ hsel]; rfl
    · rw [h2, h3]; rfl
    · rw [h2, h4]; rfl
  · obtain ⟨item', h1, h2, h3, h4, h5⟩ := kv_navigate_spec a false item hfocus hitem
    rw [show a.kv_select_prev = a.kv_navigate false from rfl]
    refine ⟨?_, ?_, ?_, ?_⟩
    · rw [h1, List.get?_set_eq_of_lt _ hsel]; rfl
    · rw [h1, List.get?_set_eq_of_lt _ hsel]; rfl
    · rw [h2, h3]; rfl
    · rw [h2, h4]; rfl
  · have hstop : a.stop_editing jo =
        { a.sync_kv_items_from_editor with edit_focus := .none } := by
      rw [App.stop_editing, if_pos hfocus]
      have hfoc2 : (a.sync_kv_items_from_editor).edit_focus = a.edit_focus := by
        rw [App.sync_kv_items_from_editor]
        cases hg : a.current_kv_items.get? a.current_kv_editor.selected with
        | none => simp
        | some it => simp [edit_focus_set_items]
      rw [if_neg (by rw [hfoc2, hfocus]; intro hc; exact EditFocus.noConfusion hc)]
    rw [hstop, current_kv_items_set_focus, sync_items_spec a item hitem,
      current_kv_items_set_items]
    constructor
    · rw [List.get?_set_eq_of_lt _ hsel]; rfl
    · rw [List.get?_set_eq_of_lt _ hsel]; rfl

/-- C5 witness: in `syncDemoApp`, moving to the next entry flushes the
edited key text "A" into the entry being left. -/
theorem kv_navigation_sync_witness :
    ((syncDemoApp.kv_select_next).current_kv_items.get?
        syncDemoApp.current_kv_editor.selected).map KeyValue.key
      = some syncDemoApp.current_kv_editor.key_input :=
  (kv_navigation_sync rejectAllJson syncDemoApp rfl (by decide)).1.1

/-- `kv_delete` with its branch structure flattened, for a non-empty list
and an in-bounds selection. -/
theorem kv_delete_eq (a : App)
    (hempty : a.current_kv_items.isEmpty = false)
    (hsel : a.current_kv_editor.selected < a.current_kv_items.length) :
    a.kv_delete =
      (if a.current_kv_editor.selected ≥ a.current_kv_items.length - 1
          ∧ 0 < a.current_kv_items.length - 1 then
        (a.set_current_kv_items
            (a.current_kv_items.eraseIdx a.current_kv_editor.selected)).set_current_kv_editor
          (a.current_kv_editor.select (a.current_kv_items.length - 1 - 1))
      else a.set_current_kv_items
        (a.current_kv_items.eraseIdx a.current_kv_editor.selected)) := by
  have hel : (a.current_kv_items.eraseIdx a.current_kv_editor.selected).length
      = a.current_kv_items.length - 1 := by
    have := List.length_eraseIdx_add_one hsel
    omega
  rw [App.kv_delete]
  simp only [hempty, Bool.false_eq_true, if_false, current_kv_items_set_items,
    current_kv_editor_set_items, hel]

/-! ## C6: delete-selected -/

/-- C6: with a non-empty collection and a valid selection, `kv_delete`
removes the selected entry; deleting at the last index moves the
selection to the new last index (length minus 2 of the original list)
when more than one entry existed and leaves it at 0 when the list becomes
empty; deleting at a non-last index leaves the selection unchanged. -/
theorem kv_delete_selection (a : App)
    (hne : a.current_kv_items ≠ [])
    (hsel : a.current_kv_editor.selected < a.current_kv_items.length) :
    (a.kv_delete).current_kv_items
        = a.current_kv_items.eraseIdx a.current_kv_editor.selected
    ∧ (a.current_kv_editor.selected = a.current_kv_items.length - 1 →
        (a.current_kv_items.length = 1 → (a.kv_delete).current_kv_editor.selected = 0)
        ∧ (1 < a.current_kv_items.length →
            (a.kv_delete).current_kv_editor.selected = a.current_kv_items.length - 2))
    ∧ (a.current_kv_editor.selected < a.current_kv_items.length - 1 →
        (a.kv_delete).current_kv_editor.selected = a.current_kv_editor.selected) := by
  have hempty : a.current_kv_items.isEmpty = false := by
    cases h : a.current_kv_items with
    | nil => exact absurd h hne
    | cons x xs => rfl
  have hdel := kv_delete_eq a hempty hsel
  refine ⟨?_, ?_, ?_⟩
  · rw [hdel]
    by_cases hc : a.current_kv_editor.selected ≥ a.current_kv_items.length - 1
        ∧ 0 < a.current_kv_items.length - 1
    · rw [if_pos hc, current_kv_items_set_editor, current_kv_items_set_items]
    · rw [if_neg hc, current_kv_items_set_items]
  · intro hlast
    constructor
    · intro hone
      have hnc : ¬ (a.current_kv_editor.selected ≥ a.current_kv_items.length - 1
          ∧ 0 < a.current_kv_items.length - 1) := by
        rintro ⟨-, h2⟩; omega
      rw [hdel, if_neg hnc, current_kv_editor_set_items]
      omega
    · intro hgt
      have hc : a.current_kv_editor.selected ≥ a.current_kv_items.length - 1
          ∧ 0 < a.current_kv_items.length - 1 := ⟨by omega, by omega⟩
      rw [hdel, if_pos hc, current_kv_editor_set_editor, select_selected]
      omega
  · intro hlt
    have hnc : ¬ (a.current_kv_editor.selected ≥ a.current_kv_items.length - 1
        ∧ 0 < a.current_kv_items.length - 1) := by
      rintro ⟨h1, -⟩; omega
    rw [hdel, if_neg hnc, current_kv_editor_set_items]

/-- C6 witness: deleting the last of two entries moves the selection to
index 0 (= N-2). -/
theorem kv_delete_selection_witness :
    (deleteDemoApp.kv_delete).current_kv_editor.selected = 0 := by
  have h := ((kv_delete_selection deleteDemoApp (by decide) (by decide)).2.1
    (by decide)).2 (by decide)
  exact h

/-! ## C7: the selection invariant -/

theorem selInv_current (a : App) (h : SelectionInv a) :
    kv_selection_ok a.current_kv_editor a.current_kv_items := by
  cases htab : a.active_tab <;>
    simp only [App.current_kv_editor, App.current_kv_items, htab] <;>
    first
      | exact h.1
      | exact h.2

theorem kv_selection_ok_congr_length (e : KvEditor) {l l' : List KeyValue}
    (hl : l'.length = l.length) (h : kv_selection_ok e l) : kv_selection_ok e l' := by
  constructor
  · intro h0; exact h.1 (by omega)
  · intro h0; rw [hl]; exact h.2 (by omega)

theorem kv_selection_ok_default (l : List KeyValue) : kv_selection_ok KvEditor.default l :=
  ⟨fun _ => rfl, fun h => h⟩

theorem selInv_set_current_kv_editor (a : App) (e : KvEditor) (h : SelectionInv a)
    (hok : kv_selection_ok e a.current_kv_items) :
    SelectionInv (a.set_current_kv_editor e) := by
  cases htab : a.active_tab with
  | params =>
    simp only [App.current_kv_items, htab] at hok
    simp only [SelectionInv, App.set_current_kv_editor, htab]
    exact ⟨hok, h.2⟩
  | headers =>
    simp only [App.current_kv_items, htab] at hok
    simp only [SelectionInv, App.set_current_kv_editor, htab]
    exact ⟨h.1, hok⟩
  | body =>
    simp only [App.current_kv_items, htab] at hok
    simp only [SelectionInv, App.set_current_kv_editor, htab]
    exact ⟨h.1, hok⟩

theorem selInv_set_current_kv_items (a : App) (items : List KeyValue) (h : SelectionInv a)
    (hok : kv_selection_ok a.current_kv_editor items) :
    SelectionInv (a.set_current_kv_items items) := by
  cases htab : a.active_tab with
  | params =>
    simp only [App.current_kv_editor, htab] at hok
    simp only [SelectionInv, App.set_current_kv_items, htab]
    exact ⟨hok, h.2⟩
  | headers =>
    simp only [App.current_kv_editor, htab] at hok
    simp only [SelectionInv, App.set_current_kv_items, htab]
    exact ⟨h.1, hok⟩
  | body =>
    simp only [App.current_kv_editor, htab] at hok
    simp only [SelectionInv, App.set_current_kv_items, htab]
    exact ⟨h.1, hok⟩

theorem selInv_set_both (a : App) (items : List KeyValue) (e : KvEditor)
    (h : SelectionInv a) (hok : kv_selection_ok e items) :
    SelectionInv ((a.set_current_kv_items items).set_current_kv_editor e) := by
  cases htab : a.active_tab with
  | params =>
    simp only [App.set_current_kv_items, App.set_current_kv_editor, SelectionInv, htab]
    exact ⟨hok, h.2⟩
  | headers =>
    simp only [App.set_current_kv_items, App.set_current_kv_editor, SelectionInv, htab]
    exact ⟨h.1, hok⟩
  | body =>
    simp only [App.set_current_kv_items, App.set_current_kv_editor, SelectionInv, htab]
    exact ⟨h.1, hok⟩

theorem selInv_sync_items (a : App) (h : SelectionInv a) :
    SelectionInv (a.sync_kv_items_from_editor) := by
  rw [App.sync_kv_items_from_editor]
  cases hg : a.current_kv_items.get? a.current_kv_editor.selected with
  | none => exact h
  | some item =>
    exact selInv_set_current_kv_items a _ h
      (kv_selection_ok_congr_length _ (List.length_set _ _ _) (selInv_current a h))

theorem selInv_sync_editor (a : App) (h : SelectionInv a) :
    SelectionInv (a.sync_kv_editor_from_items) := by
  rw [App.sync_kv_editor_from_items]
  cases hg : a.current_kv_items.get? a.current_kv_editor.selected with
  | none => exact h
  | some item =>
    refine selInv_set_current_kv_editor a _ h ?_
    have hcur := selInv_current a h
    exact ⟨hcur.1, hcur.2⟩

theorem selInv_validate (jo : JsonOracle) (a : App) (h : SelectionInv a) :
    SelectionInv (a.validate_json jo) := by
  rw [App.validate_json]
  split
  · exact h
  · split <;> exact h

theorem selInv_set_body (jo : JsonOracle) (a : App) (t : String) (h : SelectionInv a) :
    SelectionInv (a.set_body jo t) := by
  rw [App.set_body]
  exact selInv_validate jo _ h

theorem selInv_kv_navigate (a : App) (fwd : Bool) (h : SelectionInv a) :
    SelectionInv (a.kv_navigate fwd) := by
  have h1 : SelectionInv
      (if a.edit_focus = .keyValue then a.sync_kv_items_from_editor else a) := by
    split
    · exact selInv_sync_items a h
    · exact h
  set a1 := (if a.edit_focus = .keyValue then a.sync_kv_items_from_editor else a) with ha1
  have hcur := selInv_current a1 h1
  set E := (if fwd then a1.current_kv_editor.select_next a1.current_kv_items.length
    else a1.current_kv_editor.select_prev a1.current_kv_items.length) with hE
  have hok : kv_selection_ok E a1.current_kv_items := by
    constructor
    · intro h0
      have hsel0 := hcur.1 h0
      rw [hE]
      cases fwd with
      | true => simpa [KvEditor.select_next, h0] using hsel0
      | false => simpa [KvEditor.select_prev, h0] using hsel0
    · intro h0
      rw [hE]
      cases fwd with
      | true => simpa using select_next_selected_lt a1.current_kv_editor _ h0
      | false => simpa using select_prev_selected_lt a1.current_kv_editor _ h0 (hcur.2 h0)
  have h2 : SelectionInv (a1.set_current_kv_editor E) :=
    selInv_set_current_kv_editor a1 E h1 hok
  set a2 := a1.set_current_kv_editor E with ha2
  show SelectionInv (if a2.edit_focus = .keyValue then a2.sync_kv_editor_from_items else a2)
  split
  · exact selInv_sync_editor _ h2
  · exact h2

/-- Every operation preserves the selection invariant. -/
theorem selInv_step (jo : JsonOracle) (op : Op) (a : App) (h : SelectionInv a) :
    SelectionInv (step jo op a) := by
  cases op with
  | quit => exact h
  | toggleHelp => rw [step, App.toggle_help]; split <;> exact h
  | focusNextPanel => exact h
  | focusPrevPanel => exact h
  | selectNextRequest => rw [step, App.select_next_request]; split <;> exact h
  | selectPrevRequest => rw [step, App.select_prev_request]; split <;> exact h
  | addRequest r => exact h
  | newRequest => exact ⟨kv_selection_ok_default _, kv_selection_ok_default _⟩
  | updateRequest i r => rw [step, App.update_request]; split <;> exact h
  | deleteSelectedRequest =>
    rw [step]
    by_cases he : a.requests.isEmpty = true
    · rw [App.delete_selected_request, if_pos he]
      exact h
    · set a1 : App :=
        { a with
          requests := a.requests.eraseIdx a.selected_request,
          editing_request_idx := adjustEditingIdx a.editing_request_idx a.selected_request }
        with ha1
      have hrw : a.delete_selected_request =
          (if a.selected_request ≥ a1.requests.length ∧ ¬a1.requests.isEmpty then
            { a1 with sidebar_state := ⟨some (a1.requests.length - 1)⟩ }
          else a1) := by
        rw [App.delete_selected_request, if_neg he]
      rw [hrw]
      split <;> exact h
  | loadSelectedRequest =>
    rw [step, App.load_selected_request]
    split
    · exact h
    · exact ⟨kv_selection_ok_default _, kv_selection_ok_default _⟩
  | startEditing f =>
    rw [step, App.start_editing]
    split
    · exact selInv_sync_editor _ h
    · exact h
  | stopEditing =>
    rw [step, App.stop_editing]
    split
    case isTrue hfoc =>
      have h1 := selInv_sync_items a h
      split
      · exact selInv_validate jo _ h1
      · exact h1
    case isFalse hfoc =>
      split
      · exact selInv_validate jo _ h
      · exact h
  | cycleMethodNext => exact h
  | cycleMethodPrev => exact h
  | setBody t => exact selInv_set_body jo a t h
  | formatJson =>
    rw [step, App.format_json]
    split
    · exact selInv_set_body jo a _ h
    · exact h
  | validateJson => exact selInv_validate jo a h
  | kvAdd =>
    rw [step, App.kv_add]
    refine selInv_set_current_kv_editor _ _ ?_ ?_
    · refine selInv_set_current_kv_items a _ h ?_
      have hcur := selInv_current a h
      constructor
      · intro h0; simp at h0
      · intro h0
        rcases Nat.eq_zero_or_pos a.current_kv_items.length with hz | hp
        · have := hcur.1 hz
          simp only [List.length_append, List.length_cons, List.length_nil]
          omega
        · have := hcur.2 hp
          simp only [List.length_append, List.length_cons, List.length_nil]
          omega
    · constructor
      · intro h0
        rw [current_kv_items_set_items] at h0
        simp at h0
      · intro h0
        rw [current_kv_items_set_items] at h0 ⊢
        simp only [List.length_append, List.length_cons, List.length_nil] at h0 ⊢
        simp only [KvEditor.selected, Option.getD_some]
        omega
  | kvDelete =>
    rw [step]
    by_cases hempty : a.current_kv_items.isEmpty = true
    · rw [App.kv_delete]
      simp only [hempty, if_true]
      exact h
    · have hempty' : a.current_kv_items.isEmpty = false := by simpa using hempty
      have hlen : 0 < a.current_kv_items.length := by
        cases hl : a.current_kv_items with
        | nil => rw [hl] at hempty'; simp at hempty'
        | cons x xs => simp
      have hsel : a.current_kv_editor.selected < a.current_kv_items.length :=
        (selInv_current a h).2 hlen
      have hel : (a.current_kv_items.eraseIdx a.current_kv_editor.selected).length
          = a.current_kv_items.length - 1 := by
        have := List.length_eraseIdx_add_one hsel
        omega
      rw [kv_delete_eq a hempty' hsel]
      split
      next hc =>
        refine selInv_set_both a _ _ h ?_
        constructor
        · intro h0; rw [hel] at h0; omega
        · intro h0
          rw [hel] at h0 ⊢
          rw [select_selected]
          omega
      next hc =>
        refine selInv_set_current_kv_items a _ h ?_
        push_neg at hc
        constructor
        · intro h0; rw [hel] at h0; omega
        · intro h0
          rw [hel] at h0 ⊢
          by_cases hss : a.current_kv_editor.selected ≥ a.current_kv_items.length - 1
          · have := hc hss
            omega
          · omega
  | kvToggleEnabled =>
    rw [step, App.kv_toggle_enabled]
    cases hg : a.current_kv_items.get? a.current_kv_editor.selected with
    | none => exact h
    | some item =>
      exact selInv_set_current_kv_items a _ h
        (kv_selection_ok_congr_length _ (List.length_set _ _ _) (selInv_current a h))
  | kvSelectNext => exact selInv_kv_navigate a true h
  | kvSelectPrev => exact selInv_kv_navigate a false h
  | kvToggleField =>
    rw [step, App.kv_toggle_field]
    refine selInv_set_current_kv_editor a _ h ?_
    exact ⟨(selInv_current a h).1, (selInv_current a h).2⟩
  | setLoading => exact h
  | setResponse r => exact h
  | setError m => exact h
  | responseScrollUp => exact h
  | responseScrollDown => exact h
  | responseScrollTop => exact h
  | responseScrollBottom m =>
    rw [step, App.response_scroll_bottom]
    split <;> exact h
  | helpScrollUp l => exact h
  | helpScrollDown l m => exact h
  | sendRequest =>
    rw [step, send_request_eq]
    split
    · exact h
    · split
      · exact h
      · exact h

/-- C7: after any sequence of operations from a freshly constructed
application, both collection editors' selection indices stay clamped:
strictly below the item list's length when the list is non-empty, and
reading 0 when it is empty. -/
theorem selection_invariant_reachable (jo : JsonOracle) (ops : List Op) :
    SelectionInv (run jo ops App.new) := by
  have h0 : SelectionInv App.new :=
    ⟨kv_selection_ok_default _, kv_selection_ok_default _⟩
  suffices hgen : ∀ a : App, SelectionInv a → SelectionInv (run jo ops a) from hgen _ h0
  induction ops with
  | nil => intro a h; exact h
  | cons op rest ih => intro a h; exact ih _ (selInv_step jo op a h)

/-! ## C8: when Idle can reappear -/

theorem rs_set_items (a : App) (items : List KeyValue) :
    (a.set_current_kv_items items).request_state = a.request_state := by
  cases htab : a.active_tab <;> simp [App.set_current_kv_items, htab]

theorem rs_set_editor (a : App) (e : KvEditor) :
    (a.set_current_kv_editor e).request_state = a.request_state := by
  cases htab : a.active_tab <;> simp [App.set_current_kv_editor, htab]

theorem rs_validate (jo : JsonOracle) (a : App) :
    (a.validate_json jo).request_state = a.request_state := by
  rw [App.validate_json]
  split
  · rfl
  · split <;> rfl

theorem rs_set_body (jo : JsonOracle) (a : App) (t : String) :
    (a.set_body jo t).request_state = a.request_state := by
  rw [App.set_body, rs_validate]

theorem rs_format (jo : JsonOracle) (a : App) :
    (a.format_json jo).request_state = a.request_state := by
  rw [App.format_json]
  split
  · exact rs_set_body jo a _
  · rfl

theorem rs_sync_items (a : App) :
    (a.sync_kv_items_from_editor).request_state = a.request_state := by
  rw [App.sync_kv_items_from_editor]
  cases hg : a.current_kv_items.get? a.current_kv_editor.selected with
  | none => rfl
  | some item => exact rs_set_items _ _

theorem rs_sync_editor (a : App) :
    (a.sync_kv_editor_from_items).request_state = a.request_state := by
  rw [App.sync_kv_editor_from_items]
  cases hg : a.current_kv_items.get? a.current_kv_editor.selected with
  | none => rfl
  | some item => exact rs_set_editor _ _

theorem rs_toggle_help (a : App) : (a.toggle_help).request_state = a.request_state := by
  rw [App.toggle_help]
  split <;> rfl

theorem rs_select_next_request (a : App) :
    (a.select_next_request).request_state = a.request_state := by
  rw [App.select_next_request]
  split <;> rfl

theorem rs_select_prev_request (a : App) :
    (a.select_prev_request).request_state = a.request_state := by
  rw [App.select_prev_request]
  split <;> rfl

theorem rs_update_request (a : App) (i : Nat) (r : Request) :
    (a.update_request i r).request_state = a.request_state := by
  rw [App.update_request]
  split <;> rfl

theorem rs_delete_selected (a : App) :
    (a.delete_selected_request).request_state = a.request_state := by
  simp only [App.delete_selected_request]
  split
  · rfl
  · split <;> rfl

theorem rs_load_selected (jo : JsonOracle) (a : App) :
    (a.load_selected_request jo).request_state = a.request_state := by
  simp only [App.load_selected_request]
  split
  · rfl
  · exact rs_set_body jo _ _

theorem rs_start_editing (a : App) (f : EditFocus) :
    (a.start_editing f).request_state = a.request_state := by
  simp only [App.start_editing]
  split
  · exact rs_sync_editor _
  · rfl

theorem rs_stop_editing (jo : JsonOracle) (a : App) :
    (a.stop_editing jo).request_state = a.request_state := by
  simp only [App.stop_editing]
  split
  · split
    · rw [rs_validate, rs_sync_items]
    · exact rs_sync_items a
  · split
    · exact rs_validate jo a
    · rfl

theorem rs_kv_add (a : App) : (a.kv_add).request_state = a.request_state := by
  simp only [App.kv_add]
  rw [rs_set_editor, rs_set_items]

theorem rs_kv_delete (a : App) : (a.kv_delete).request_state = a.request_state := by
  simp only [App.kv_delete]
  split
  · rfl
  · split
    · rw [rs_set_editor, rs_set_items]
    · exact rs_set_items _ _

theorem rs_kv_toggle_enabled (a : App) :
    (a.kv_toggle_enabled).request_state = a.request_state := by
  simp only [App.kv_toggle_enabled]
  split
  · exact rs_set_items _ _
  · rfl

theorem rs_kv_navigate (a : App) (fwd : Bool) :
    (a.kv_navigate fwd).request_state = a.request_state := by
  simp only [App.kv_navigate]
  rw [apply_ite (fun x : App => x.request_state), rs_sync_editor, rs_set_editor, ite_self,
    apply_ite (fun x : App => x.request_state), rs_sync_items, ite_self]

theorem rs_kv_toggle_field (a : App) :
    (a.kv_toggle_field).request_state = a.request_state := by
  simp only [App.kv_toggle_field]
  exact rs_set_editor _ _

theorem rs_response_scroll_bottom (a : App) (m : Nat) :
    (a.response_scroll_bottom m).request_state = a.request_state := by
  rw [App.response_scroll_bottom]
  split <;> rfl

/-- C8 counterexample: from a fresh application, `set_loading` followed by
`new_request` reaches `Idle` from a non-`Idle` state — `new_request`
resets `request_state` to its default, so `Idle` is re-entered after
construction, contrary to the claim. -/
theorem idle_reentered_counterexample :
    (run rejectAllJson [Op.setLoading] App.new).request_state = RequestState.loading
    ∧ (run rejectAllJson [Op.setLoading, Op.newRequest] App.new).request_state
        = RequestState.idle :=
  ⟨rfl, rfl⟩

/-- C8 (amended): `new_request` is the only operation that can put the
application (back) into the `Idle` state — after any other single
operation the state is `Idle` only if it already was `Idle`; in
particular `set_loading`, `set_response`, `set_error` and
`load_selected_request` never re-enter `Idle`. -/
theorem idle_only_from_new_request (jo : JsonOracle) (op : Op) (a : App)
    (h : (step jo op a).request_state = .idle) :
    op = Op.newRequest ∨ a.request_state = .idle := by
  cases op with
  | newRequest => exact Or.inl rfl
  | setLoading => simp [step, App.set_loading] at h
  | setResponse r => simp [step, App.set_response] at h
  | setError m => simp [step, App.set_error] at h
  | sendRequest =>
    right
    simp only [step, send_request_eq] at h
    split at h
    · exact h
    · split at h
      · simp [App.set_error] at h
      · simp [App.set_loading] at h
  | quit => exact Or.inr h
  | toggleHelp => right; simp only [step] at h; rwa [rs_toggle_help] at h
  | focusNextPanel => exact Or.inr h
  | focusPrevPanel => exact Or.inr h
  | selectNextRequest => right; simp only [step] at h; rwa [rs_select_next_request] at h
  | selectPrevRequest => right; simp only [step] at h; rwa [rs_select_prev_request] at h
  | addRequest r => exact Or.inr h
  | updateRequest i r => right; simp only [step] at h; rwa [rs_update_request] at h
  | deleteSelectedRequest => right; simp only [step] at h; rwa [rs_delete_selected] at h
  | loadSelectedRequest => right; simp only [step] at h; rwa [rs_load_selected] at h
  | startEditing f => right; simp only [step] at h; rwa [rs_start_editing] at h
  | stopEditing => right; simp only [step] at h; rwa [rs_stop_editing] at h
  | cycleMethodNext => exact Or.inr h
  | cycleMethodPrev => exact Or.inr h
  | setBody t => right; simp only [step] at h; rwa [rs_set_body] at h
  | formatJson => right; simp only [step] at h; rwa [rs_format] at h
  | validateJson => right; simp only [step] at h; rwa [rs_validate] at h
  | kvAdd => right; simp only [step] at h; rwa [rs_kv_add] at h
  | kvDelete => right; simp only [step] at h; rwa [rs_kv_delete] at h
  | kvToggleEnabled => right; simp only [step] at h; rwa [rs_kv_toggle_enabled] at h
  | kvSelectNext =>
    right; simp only [step, App.kv_select_next] at h; rwa [rs_kv_navigate] at h
  | kvSelectPrev =>
    right; simp only [step, App.kv_select_prev] at h; rwa [rs_kv_navigate] at h
  | kvToggleField => right; simp only [step] at h; rwa [rs_kv_toggle_field] at h
  | responseScrollUp => exact Or.inr h
  | responseScrollDown => exact Or.inr h
  | responseScrollTop => exact Or.inr h
  | responseScrollBottom m =>
    right; simp only [step] at h; rwa [rs_response_scroll_bottom] at h
  | helpScrollUp l => exact Or.inr h
  | helpScrollDown l m => exact Or.inr h

/-- C8 witness: the amended statement applied to the `quit` operation on a
fresh application. -/
theorem idle_only_from_new_request_witness :
    Op.quit = Op.newRequest ∨ App.new.request_state = RequestState.idle :=
  idle_only_from_new_request rejectAllJson Op.quit App.new rfl

/-! ## C9, C10, C1 -/

/-- C9: `set_loading`, `set_response` and `set_error` reset the response
scroll offset to 0 from every prior state and every argument. -/
theorem lifecycle_resets_response_scroll (a : App) (r : Response) (e : String) :
    (a.set_loading).response_scroll = 0
    ∧ (a.set_response r).response_scroll = 0
    ∧ (a.set_error e).response_scroll = 0 :=
  ⟨rfl, rfl, rfl⟩

/-- C10: `validate_json` records an error exactly when the body is
non-empty after trimming and fails to parse; an empty-after-trim body
always yields no error, whatever the parser would say about it. -/
theorem validate_json_error_iff (jo : JsonOracle) (a : App) :
    ((a.validate_json jo).json_error.isSome ↔
      ((strTrim a.body).isEmpty = false ∧ ∃ e, jo.parse a.body = .error e))
    ∧ ((strTrim a.body).isEmpty = true → (a.validate_json jo).json_error = none) := by
  constructor
  · rw [App.validate_json]
    by_cases ht : (strTrim a.body).isEmpty = true
    · simp [ht]
    · have ht' : (strTrim a.body).isEmpty = false := by simpa using ht
      cases hp : jo.parse a.body with
      | ok u => simp [ht', hp]
      | error e => simp [ht', hp]
  · intro ht
    rw [App.validate_json]
    simp [ht]

/-- C10 witness: a fresh application's empty body validates with no error
even under a parser that rejects everything. -/
theorem validate_json_error_iff_witness :
    (App.new.validate_json rejectAllJson).json_error = none :=
  (validate_json_error_iff rejectAllJson App.new).2 rfl

/-- C1: while the request state is `Loading`, `send_request` is a no-op —
the application is returned unchanged and no dispatch is spawned; and
whenever a send does spawn a dispatch, the state it leaves behind is
`Loading`, so an immediately following send spawns nothing: two sends in
succession issue exactly one dispatch. -/
theorem send_request_rejects_while_loading (app : App) :
    (app.request_state = .loading → send_request app = (app, none))
    ∧ (∀ d, (send_request app).2 = some d →
        (send_request app).1.request_state = .loading
          ∧ (send_request (send_request app).1).2 = none) := by
  constructor
  · intro h
    rw [send_request_eq]
    have hl : app.is_loading = true := by rw [App.is_loading, h]
    rw [if_pos hl]
  · intro d hd
    rw [send_request_eq] at hd
    by_cases hl : app.is_loading = true
    · rw [if_pos hl] at hd
      exact absurd hd (by simp)
    · rw [if_neg hl] at hd
      by_cases hu : (strTrim app.url_input).isEmpty = true
      · rw [if_pos hu] at hd
        exact absurd hd (by simp)
      · rw [if_neg hu] at hd
        have h1 : (send_request app).1 = app.set_loading := by
          rw [send_request_eq, if_neg hl, if_neg hu]
        constructor
        · rw [h1]; rfl
        · rw [h1, send_request_eq,
            if_pos (show (app.set_loading).is_loading = true from rfl)]

/-- C1 witness: after a first successful send from a fresh application
with URL text "x", a second send spawns nothing. -/
theorem send_request_rejects_while_loading_witness :
    (send_request (send_request { App.new with url_input := "x" }).1).2 = none :=
  ((send_request_rejects_while_loading { App.new with url_input := "x" }).2
    (HttpMethod.get, "https://x") rfl).2

end Courier
